import Mathlib

/-!
Shallow embedding of `src/block.rs` from the `simples` ledger: blocks,
signed blocks, hashed blocks with a cached content digest, block patches,
genesis-block construction, and their verification logic.

The crypto primitives (`HashDigest`, `hash`, `hash_message`, keypairs),
the protobuf message types and the transaction capability live outside the
repository slice under `src/`; those are modelled from the spec, each with
a doc comment saying so.  Rust byte strings are modelled as `List Nat`;
fallible Rust functions (`SimplesResult`) return `Except String`; methods
taking `&mut self` return the updated value.  The wall clock consulted by
`create_genesis_block` and the keypair generated inside
`GenesisBuilder.build` are passed as explicit arguments.
-/

namespace Simples

/-- Byte strings (`Vec<u8>` / `&[u8]`), with bytes modelled as `Nat`. -/
abbrev Bytes := List Nat

/-- `SimplesResult<T>` from the error module: success or a message-carrying
`SimplesError`. -/
abbrev SimplesResult (α : Type) := Except String α

/-- Modelled from the spec: `HashDigest` (crypto module, not under `src/`)
is a fixed-size 32-byte cryptographic hash value; equality is byte-exact. -/
structure HashDigest where
  bytes : Bytes
  wf : bytes.length = 32

instance : DecidableEq HashDigest := fun a b =>
  decidable_of_iff (a.bytes = b.bytes) (by cases a; cases b; simp)

/-- Modelled from the spec: the diagnostic rendering of a digest (the crypto
module's `Display` impl). -/
def HashDigest.display (d : HashDigest) : String := toString d.bytes

/-- Modelled from the spec: `HashDigest::from_bytes` decodes a digest from
exactly 32 bytes; any other length is a decode error. -/
def HashDigest.from_bytes (b : Bytes) : SimplesResult HashDigest :=
  if h : b.length = 32 then .ok ⟨b, h⟩
  else .error "Invalid hash digest: wrong number of bytes."

/-- Modelled from the spec: `HashDigest::from_u64` embeds a machine word in
a digest; `from_u64 0` is the reserved all-zero sentinel for "no
predecessor". -/
def HashDigest.from_u64 (n : Nat) : HashDigest :=
  ⟨n :: List.replicate 31 0, by simp⟩

/-- Injective encoding of a list, given an encoding of its elements; used to
model deterministic canonical serialization. -/
def encListWith (f : α → Nat) : List α → Nat
  | [] => 0
  | a :: t => Nat.pair (f a) (encListWith f t) + 1

/-- Injective encoding of a byte string. -/
def encBytes : Bytes → Nat := encListWith id

/-- Injective encoding of an optional key. -/
def encOption : Option Nat → Nat
  | none => 0
  | some k => k + 1

/-- Injective encoding of a flag. -/
def encBool : Bool → Nat
  | false => 0
  | true => 1

/-- Injective encoding of a signed integer. -/
def encInt : Int → Nat
  | Int.ofNat n => 2 * n
  | Int.negSucc n => 2 * n + 1

/-- Modelled from the spec: one transfer operation inside a `Transaction`
(tx module, not under `src/`): the signing secret key, source and
destination public keys, token amount and operation index.  Keys are
modelled as `Nat`. -/
structure TransferOp where
  signer_sk : Nat
  src_pk : Nat
  dst_pk : Nat
  tokens : Nat
  op_index : Nat
deriving DecidableEq

/-- Modelled from the spec: the part of a transaction's commit data
introspected by this core — the bounty amount and the optional
bounty-recipient key (`has_bounty_pk` is its presence). -/
structure Commit where
  bounty : Nat
  bounty_pk : Option Nat
deriving DecidableEq

/-- `has_bounty_pk()` on the commit. -/
def Commit.has_bounty_pk (c : Commit) : Bool := c.bounty_pk.isSome

/-- Modelled from the spec: `Transaction` is an opaque collaborator exposing
its commit's bounty fields, its transfer operations, and signature
verification.  Whether its signatures verify is carried as a flag: set by
the transaction builder (which signs), cleared by `clear_signatures`. -/
structure Transaction where
  commit : Commit
  transfers : List TransferOp
  signatures_valid : Bool
deriving DecidableEq

/-- `Transaction::new()`: all fields at protobuf defaults; an empty
transaction has no signatures to check, so verification succeeds. -/
def Transaction.new : Transaction := ⟨⟨0, none⟩, [], true⟩

/-- Modelled from the spec: `verify_signatures()` of the transaction
capability. -/
def Transaction.verify_signatures (tx : Transaction) : SimplesResult Unit :=
  if tx.signatures_valid then .ok () else .error "Invalid transaction signatures."

/-- Modelled from the spec: `clear_signatures()` strips the signatures, after
which verification fails (used by the repository's tests). -/
def Transaction.clear_signatures (tx : Transaction) : Transaction :=
  { tx with signatures_valid := false }

/-- The unsigned block payload: predecessor digest bytes, timestamp,
ordered transaction list (protobuf message `Block`). -/
structure Block where
  previous : Bytes
  timestamp : Int
  transactions : List Transaction
deriving DecidableEq

/-- `Block` plus a signature over it (protobuf message `SignedBlock`). -/
structure SignedBlock where
  block : Block
  signature : Bytes
deriving DecidableEq

/-- `SignedBlock` plus a cached content digest (protobuf message
`HashedBlock`). -/
structure HashedBlock where
  signed_block : SignedBlock
  hash : Bytes
deriving DecidableEq

/-- `Block::new()`: protobuf defaults (empty bytes, zero, empty list). -/
def Block.new : Block := ⟨[], 0, []⟩

/-- `SignedBlock::new()`: protobuf defaults. -/
def SignedBlock.new : SignedBlock := ⟨Block.new, []⟩

/-- `HashedBlock::new()`: protobuf defaults. -/
def HashedBlock.new : HashedBlock := ⟨SignedBlock.new, []⟩

/-- `set_previous` on the block (protobuf setter). -/
def Block.set_previous (b : Block) (bs : Bytes) : Block := { b with previous := bs }

/-- `set_timestamp` on the block (protobuf setter). -/
def Block.set_timestamp (b : Block) (t : Int) : Block := { b with timestamp := t }

/-- `mut_transactions().push(tx)` on the block. -/
def Block.push_transaction (b : Block) (tx : Transaction) : Block :=
  { b with transactions := b.transactions ++ [tx] }

/-- Update the inner block through `mut_signed_block().mut_block()`. -/
def HashedBlock.mut_block (hb : HashedBlock) (f : Block → Block) : HashedBlock :=
  { hb with signed_block := { hb.signed_block with block := f hb.signed_block.block } }

def encTransferOp (o : TransferOp) : Nat :=
  Nat.pair o.signer_sk (Nat.pair o.src_pk (Nat.pair o.dst_pk (Nat.pair o.tokens o.op_index)))

def encCommit (c : Commit) : Nat := Nat.pair c.bounty (encOption c.bounty_pk)

def encTransaction (t : Transaction) : Nat :=
  Nat.pair (encCommit t.commit)
    (Nat.pair (encListWith encTransferOp t.transfers) (encBool t.signatures_valid))

def encBlock (b : Block) : Nat :=
  Nat.pair (encBytes b.previous)
    (Nat.pair (encInt b.timestamp) (encListWith encTransaction b.transactions))

def encSignedBlock (sb : SignedBlock) : Nat :=
  Nat.pair (encBlock sb.block) (encBytes sb.signature)

/-- Modelled from the spec: the deterministic, canonical byte serialization
of a `SignedBlock` (protobuf serialization, external): identical logical
content serializes identically, distinct content distinctly. -/
def serialize (sb : SignedBlock) : Bytes := [encSignedBlock sb]

/-- Modelled from the spec: the deterministic content hash
`hash(message_bytes) -> Digest` of the crypto module.  Modelled as an ideal
(collision-free) digest, matching the spec's sensitivity property, which
treats distinct contents as having distinct digests. -/
def hash (msg : Bytes) : HashDigest :=
  ⟨(encBytes msg + 1) :: List.replicate 31 0, by simp⟩

/-- Modelled from the spec: `hash_message` serializes the message and hashes
the bytes. -/
def hash_message (sb : SignedBlock) : HashDigest := hash (serialize sb)

/-- The mismatch diagnostic built by `verify_hash`:
`"Block has invalid hash: <stored> != <computed> (actual)"`. -/
def mismatch_error (stored computed : HashDigest) : String :=
  "Block has invalid hash: " ++ stored.display ++ " != " ++ computed.display
    ++ " (actual)"

/-- `HashedBlockExt::compute_hash`: hash the signed block, store the digest
bytes in `hash`, and return the digest (here: the updated block paired with
the digest). -/
def HashedBlock.compute_hash (hb : HashedBlock) : HashedBlock × HashDigest :=
  let hash_digest := hash_message hb.signed_block
  ({ hb with hash := hash_digest.bytes }, hash_digest)

/-- `HashedBlockExt::decode_hash`. -/
def HashedBlock.decode_hash (hb : HashedBlock) : SimplesResult HashDigest :=
  HashDigest.from_bytes hb.hash

/-- `HashedBlockExt::get_block`. -/
def HashedBlock.get_block (hb : HashedBlock) : Block := hb.signed_block.block

/-- `HashedBlockExt::decode_previous`. -/
def HashedBlock.decode_previous (hb : HashedBlock) : SimplesResult HashDigest :=
  HashDigest.from_bytes hb.get_block.previous

/-- `HashedBlockExt::set_previous_block`. -/
def HashedBlock.set_previous_block (hb : HashedBlock) (block_hash : HashDigest) :
    HashedBlock :=
  hb.mut_block (fun b => b.set_previous block_hash.bytes)

/-- `HashedBlockExt::verify_hash`: decode the stored hash, decode the
predecessor pointer, recompute the content digest and compare. -/
def HashedBlock.verify_hash (hb : HashedBlock) : SimplesResult Unit := do
  let block_hash ← HashDigest.from_bytes hb.hash
  let _ ← HashDigest.from_bytes hb.get_block.previous
  let computed_hash := hash_message hb.signed_block
  if computed_hash = block_hash then .ok ()
  else .error (mismatch_error block_hash computed_hash)

/-- `SignedBlockExt::verify_signature`: the stub that always succeeds. -/
def SignedBlock.verify_signature (_sb : SignedBlock) : SimplesResult Unit := .ok ()

/-- The transaction loop inside `HashedBlockExt::verify`:
`for tx in txes ... try!(tx.verify_signatures())`. -/
def verify_transactions : List Transaction → SimplesResult Unit
  | [] => .ok ()
  | tx :: txes => do
    let _ ← tx.verify_signatures
    verify_transactions txes

/-- `HashedBlockExt::verify`: hash check, then block signature, then every
transaction's own signatures. -/
def HashedBlock.verify (hb : HashedBlock) : SimplesResult Unit := do
  let _ ← hb.verify_hash
  let _ ← hb.signed_block.verify_signature
  verify_transactions hb.get_block.transactions

/-- `create_genesis_block`: reject a bounty or bounty-recipient, check the
transaction's signatures, then build the block (one transaction, all-zero
predecessor, current time) and compute its hash.  The wall clock
(`time::now_utc().to_timespec().sec`) is the explicit argument `now`. -/
def create_genesis_block (now : Int) (tx : Transaction) : SimplesResult HashedBlock :=
  if tx.commit.bounty != 0 || tx.commit.has_bounty_pk then
    .error "Transactions must not have a bounty set in a genesis block."
  else do
    let _ ← tx.verify_signatures
    let genesis := HashedBlock.new
    let genesis := genesis.mut_block (fun b => b.push_transaction tx)
    let genesis := genesis.mut_block (fun b => b.set_previous (HashDigest.from_u64 0).bytes)
    let genesis := genesis.mut_block (fun b => b.set_timestamp now)
    .ok (genesis.compute_hash).1

/-- Modelled from the spec: `TransactionBuilder` (tx module, not under
`src/`) accumulates transfer operations. -/
structure TransactionBuilder where
  ops : List TransferOp

/-- `TransactionBuilder::new()`. -/
def TransactionBuilder.new : TransactionBuilder := ⟨[]⟩

/-- Modelled from the spec: `add_transfer(&sk, &pk, &destination, tokens,
op_num)` appends a transfer from `pk` to `destination`, signed with `sk`,
tagged with the operation index. -/
def TransactionBuilder.add_transfer (tb : TransactionBuilder)
    (sk pk destination tokens op_num : Nat) : TransactionBuilder :=
  { tb with ops := tb.ops ++ [⟨sk, pk, destination, tokens, op_num⟩] }

/-- Modelled from the spec: `TransactionBuilder::build()` finalizes and
signs the accumulated transfers into a transaction with default (unset)
bounty fields and verifying signatures. -/
def TransactionBuilder.build (tb : TransactionBuilder) : SimplesResult Transaction :=
  .ok { commit := ⟨0, none⟩, transfers := tb.ops, signatures_valid := true }

/-- `GenesisBuilder`: the accumulated `(destination public key, tokens)`
transfers. -/
structure GenesisBuilder where
  transfers : List (Nat × Nat)

/-- `GenesisBuilder::new()`. -/
def GenesisBuilder.new : GenesisBuilder := ⟨[]⟩

/-- `GenesisBuilder::add_transfer`. -/
def GenesisBuilder.add_transfer (gb : GenesisBuilder) (destination tokens : Nat) :
    GenesisBuilder :=
  { gb with transfers := gb.transfers ++ [(destination, tokens)] }

/-- The loop inside `GenesisBuilder::build`: add each accumulated transfer
from the minting key to its destination, with `op_num` counting up from 0. -/
def add_transfer_loop (sk pk : Nat) :
    List (Nat × Nat) → TransactionBuilder → Nat → TransactionBuilder
  | [], tb, _ => tb
  | (destination, tokens) :: rest, tb, op_num =>
    add_transfer_loop sk pk rest (tb.add_transfer sk pk destination tokens op_num)
      (op_num + 1)

/-- `GenesisBuilder::build`: generate a fresh keypair (here the explicit
argument `keypair = (public_key, secret_key)`), build and sign the genesis
transaction, assert its signatures verify, and wrap it via
`create_genesis_block` (the source unwraps; panics are modelled as
errors). -/
def GenesisBuilder.build (gb : GenesisBuilder) (now : Int) (keypair : Nat × Nat) :
    SimplesResult HashedBlock := do
  let tx_builder := add_transfer_loop keypair.2 keypair.1 gb.transfers
    TransactionBuilder.new 0
  let genesis_tx ← tx_builder.build
  let _ ← genesis_tx.verify_signatures
  create_genesis_block now genesis_tx

/-- `BlockPatch`: a standalone carrier of a predecessor pointer (protobuf
message). -/
structure BlockPatch where
  previous : Bytes
deriving DecidableEq

/-- `BlockPatch::new()`: protobuf defaults. -/
def BlockPatch.new : BlockPatch := ⟨[]⟩

/-- `BlockPatchExt::decode_previous`. -/
def BlockPatch.decode_previous (p : BlockPatch) : SimplesResult HashDigest :=
  HashDigest.from_bytes p.previous

/-- `BlockPatchExt::encode_previous`. -/
def BlockPatch.encode_previous (p : BlockPatch) (previous : HashDigest) : BlockPatch :=
  { p with previous := previous.bytes }

/-! ### Small monad-reduction lemmas for `Except` -/

theorem ok_bind (a : α) (f : α → Except ε β) : (Except.ok a >>= f) = f a := rfl

theorem error_bind (e : ε) (f : α → Except ε β) :
    ((Except.error e : Except ε α) >>= f) = Except.error e := rfl

/-! ### Injectivity of the modelled canonical serialization and ideal hash -/

theorem HashDigest.eq_of_bytes {a b : HashDigest} (h : a.bytes = b.bytes) : a = b := by
  cases a; cases b; simp_all

theorem encListWith_injective (f : α → Nat) (hf : Function.Injective f) :
    Function.Injective (encListWith f) := by
  intro l1 l2 h
  induction l1 generalizing l2 with
  | nil =>
    cases l2 with
    | nil => rfl
    | cons b t => simp [encListWith] at h
  | cons a t ih =>
    cases l2 with
    | nil => simp [encListWith] at h
    | cons b t2 =>
      simp only [encListWith, Nat.add_right_cancel_iff, Nat.pair_eq_pair] at h
      obtain ⟨h1, h2⟩ := h
      rw [hf h1, ih h2]

theorem encBytes_injective : Function.Injective encBytes :=
  encListWith_injective id fun _ _ h => h

theorem encOption_injective : Function.Injective encOption := by
  intro a b h
  cases a <;> cases b <;> simp_all [encOption]

theorem encBool_injective : Function.Injective encBool := by
  intro a b h
  cases a <;> cases b <;> simp_all [encBool]

theorem encInt_injective : Function.Injective encInt := by
  rintro (a | a) (b | b) h <;> simp only [encInt] at h
  · exact congrArg Int.ofNat (by omega)
  · exact absurd h (by omega)
  · exact absurd h (by omega)
  · exact congrArg Int.negSucc (by omega)

theorem encTransferOp_injective : Function.Injective encTransferOp := by
  rintro ⟨a1, a2, a3, a4, a5⟩ ⟨b1, b2, b3, b4, b5⟩ h
  simp only [encTransferOp, Nat.pair_eq_pair] at h
  simp_all

theorem encCommit_injective : Function.Injective encCommit := by
  rintro ⟨a1, a2⟩ ⟨b1, b2⟩ h
  simp only [encCommit, Nat.pair_eq_pair] at h
  obtain ⟨h1, h2⟩ := h
  rw [h1, encOption_injective h2]

theorem encTransaction_injective : Function.Injective encTransaction := by
  rintro ⟨a1, a2, a3⟩ ⟨b1, b2, b3⟩ h
  simp only [encTransaction, Nat.pair_eq_pair] at h
  obtain ⟨h1, h2, h3⟩ := h
  rw [encCommit_injective h1,
    encListWith_injective encTransferOp encTransferOp_injective h2,
    encBool_injective h3]

theorem encBlock_injective : Function.Injective encBlock := by
  rintro ⟨a1, a2, a3⟩ ⟨b1, b2, b3⟩ h
  simp only [encBlock, Nat.pair_eq_pair] at h
  obtain ⟨h1, h2, h3⟩ := h
  rw [encBytes_injective h1, encInt_injective h2,
    encListWith_injective encTransaction encTransaction_injective h3]

theorem encSignedBlock_injective : Function.Injective encSignedBlock := by
  rintro ⟨a1, a2⟩ ⟨b1, b2⟩ h
  simp only [encSignedBlock, Nat.pair_eq_pair] at h
  obtain ⟨h1, h2⟩ := h
  rw [encBlock_injective h1, encBytes_injective h2]

theorem hash_injective : Function.Injective hash := by
  intro m1 m2 h
  have hb := congrArg HashDigest.bytes h
  simp only [hash, List.cons.injEq, Nat.add_right_cancel_iff] at hb
  exact encBytes_injective hb.1

theorem hash_message_injective : Function.Injective hash_message := by
  intro s1 s2 h
  have h2 := hash_injective h
  simp only [serialize, List.cons.injEq] at h2
  exact encSignedBlock_injective h2.1

/-! ### Characterizations of the verification routines -/

theorem from_bytes_ok_iff (b : Bytes) (d : HashDigest) :
    HashDigest.from_bytes b = .ok d ↔ b.length = 32 ∧ d.bytes = b := by
  unfold HashDigest.from_bytes
  split
  case isTrue h =>
    constructor
    · intro hd
      cases hd
      simp_all
    · rintro ⟨h1, h2⟩
      exact congrArg Except.ok (HashDigest.eq_of_bytes h2).symm
  case isFalse h =>
    constructor
    · intro hd
      cases hd
    · rintro ⟨h1, h2⟩
      exact absurd h1 h

theorem from_bytes_wf (d : HashDigest) :
    HashDigest.from_bytes d.bytes = .ok d := by
  rw [from_bytes_ok_iff]
  exact ⟨d.wf, rfl⟩

theorem verify_hash_ok_iff (hb : HashedBlock) :
    hb.verify_hash = .ok () ↔
      hb.hash.length = 32 ∧ hb.get_block.previous.length = 32 ∧
        (hash_message hb.signed_block).bytes = hb.hash := by
  unfold HashedBlock.verify_hash HashDigest.from_bytes
  split
  case isTrue h1 =>
    split
    case isTrue h2 =>
      simp only [ok_bind, h1, h2, true_and]
      split
      case isTrue heq =>
        rw [heq]
        simp
      case isFalse hne =>
        constructor
        · intro h
          exact absurd h (by simp)
        · intro h
          exact absurd (HashDigest.eq_of_bytes h) hne
    case isFalse h2 =>
      simp only [ok_bind, error_bind, h2, false_and, and_false, iff_false]
      intro h
      cases h
  case isFalse h1 =>
    simp only [error_bind, h1, false_and, iff_false]
    intro h
    cases h

theorem verify_hash_mismatch (hb : HashedBlock) (stored prev : HashDigest)
    (hd : HashDigest.from_bytes hb.hash = .ok stored)
    (hp : HashDigest.from_bytes hb.get_block.previous = .ok prev)
    (hne : hash_message hb.signed_block ≠ stored) :
    hb.verify_hash = .error (mismatch_error stored (hash_message hb.signed_block)) := by
  unfold HashedBlock.verify_hash
  rw [hd, hp]
  simp only [ok_bind]
  rw [if_neg hne]

theorem verify_hash_of_computed (hb : HashedBlock)
    (h : hb.get_block.previous.length = 32) :
    (hb.compute_hash).1.verify_hash = .ok () := by
  rw [verify_hash_ok_iff]
  exact ⟨(hash_message hb.signed_block).wf, h, rfl⟩

theorem verify_transactions_ok_iff (l : List Transaction) :
    verify_transactions l = .ok () ↔ ∀ tx ∈ l, tx.verify_signatures = .ok () := by
  induction l with
  | nil => simp [verify_transactions]
  | cons tx rest ih =>
    by_cases hv : tx.signatures_valid
    · have htx : tx.verify_signatures = .ok () := by
        simp [Transaction.verify_signatures, hv]
      simp [verify_transactions, htx, ok_bind, ih, List.forall_mem_cons]
    · have htx : tx.verify_signatures = .error "Invalid transaction signatures." := by
        simp [Transaction.verify_signatures, hv]
      simp [verify_transactions, htx, error_bind, List.forall_mem_cons]

theorem verify_eq_error_of_hash (hb : HashedBlock) (e : String)
    (h : hb.verify_hash = .error e) : hb.verify = .error e := by
  unfold HashedBlock.verify
  rw [h]
  rfl

theorem verify_of_hash_ok (hb : HashedBlock) (h : hb.verify_hash = .ok ()) :
    hb.verify = verify_transactions hb.get_block.transactions := by
  unfold HashedBlock.verify
  rw [h]
  rfl

/-- The signed payload assembled by `create_genesis_block` before hashing:
one transaction, all-zero predecessor, the current time, default
signature. -/
def genesis_payload (now : Int) (tx : Transaction) : SignedBlock :=
  { block := { previous := (HashDigest.from_u64 0).bytes
               timestamp := now
               transactions := [tx] }
    signature := [] }

theorem create_genesis_block_ok (now : Int) (tx : Transaction)
    (h0 : tx.commit.bounty = 0) (h1 : tx.commit.has_bounty_pk = false)
    (h2 : tx.verify_signatures = .ok ()) :
    create_genesis_block now tx =
      .ok { signed_block := genesis_payload now tx
            hash := (hash_message (genesis_payload now tx)).bytes } := by
  unfold create_genesis_block
  have hcond : (tx.commit.bounty != 0 || tx.commit.has_bounty_pk) = false := by
    simp [h0, h1]
  rw [hcond]
  simp only [Bool.false_eq_true, if_false, h2, ok_bind]
  unfold HashedBlock.compute_hash HashedBlock.mut_block HashedBlock.new
    SignedBlock.new Block.new Block.push_transaction Block.set_previous
    Block.set_timestamp genesis_payload
  rfl

theorem create_genesis_block_bounty_err (now : Int) (tx : Transaction)
    (h : tx.commit.bounty ≠ 0 ∨ tx.commit.has_bounty_pk = true) :
    create_genesis_block now tx =
      .error "Transactions must not have a bounty set in a genesis block." := by
  unfold create_genesis_block
  have hcond : (tx.commit.bounty != 0 || tx.commit.has_bounty_pk) = true := by
    rcases h with h | h <;> simp [h]
  rw [hcond]
  rfl

theorem create_genesis_block_sig_err (now : Int) (tx : Transaction) (e : String)
    (h0 : tx.commit.bounty = 0) (h1 : tx.commit.has_bounty_pk = false)
    (h2 : tx.verify_signatures = .error e) :
    create_genesis_block now tx = .error e := by
  unfold create_genesis_block
  have hcond : (tx.commit.bounty != 0 || tx.commit.has_bounty_pk) = false := by
    simp [h0, h1]
  rw [hcond]
  simp only [Bool.false_eq_true, if_false, h2, error_bind]

/-- The transfer operations the genesis loop is expected to produce from
the accumulated transfers, starting at operation index `n`. -/
def expected_ops (sk pk : Nat) : List (Nat × Nat) → Nat → List TransferOp
  | [], _ => []
  | (destination, tokens) :: rest, n =>
    ⟨sk, pk, destination, tokens, n⟩ :: expected_ops sk pk rest (n + 1)

theorem add_transfer_loop_ops (sk pk : Nat) (l : List (Nat × Nat))
    (tb : TransactionBuilder) (n : Nat) :
    (add_transfer_loop sk pk l tb n).ops = tb.ops ++ expected_ops sk pk l n := by
  induction l generalizing tb n with
  | nil => simp [add_transfer_loop, expected_ops]
  | cons dt rest ih =>
    obtain ⟨destination, tokens⟩ := dt
    rw [add_transfer_loop, expected_ops, ih]
    simp [TransactionBuilder.add_transfer]

theorem expected_ops_length (sk pk : Nat) (l : List (Nat × Nat)) (n : Nat) :
    (expected_ops sk pk l n).length = l.length := by
  induction l generalizing n with
  | nil => rfl
  | cons dt rest ih => obtain ⟨d, t⟩ := dt; simp [expected_ops, ih]

theorem expected_ops_dst_tokens (sk pk : Nat) (l : List (Nat × Nat)) (n : Nat) :
    (expected_ops sk pk l n).map (fun o => (o.dst_pk, o.tokens)) = l := by
  induction l generalizing n with
  | nil => rfl
  | cons dt rest ih => obtain ⟨d, t⟩ := dt; simp [expected_ops, ih]

theorem expected_ops_indices (sk pk : Nat) (l : List (Nat × Nat)) (n : Nat) :
    (expected_ops sk pk l n).map (fun o => o.op_index) = List.range' n l.length := by
  induction l generalizing n with
  | nil => rfl
  | cons dt rest ih =>
    obtain ⟨d, t⟩ := dt
    simp [expected_ops, ih, List.range']

theorem expected_ops_src (sk pk : Nat) (l : List (Nat × Nat)) (n : Nat) :
    (expected_ops sk pk l n).map (fun o => o.src_pk) = List.replicate l.length pk := by
  induction l generalizing n with
  | nil => rfl
  | cons dt rest ih => obtain ⟨d, t⟩ := dt; simp [expected_ops, ih, List.replicate]

theorem expected_ops_signer (sk pk : Nat) (l : List (Nat × Nat)) (n : Nat) :
    (expected_ops sk pk l n).map (fun o => o.signer_sk) = List.replicate l.length sk := by
  induction l generalizing n with
  | nil => rfl
  | cons dt rest ih => obtain ⟨d, t⟩ := dt; simp [expected_ops, ih, List.replicate]

theorem hash_message_ne_from_u64_zero (sb : SignedBlock) :
    hash_message sb ≠ HashDigest.from_u64 0 := by
  intro h
  have hb := congrArg HashDigest.bytes h
  simp [hash_message, hash, HashDigest.from_u64] at hb

/-! ### Concrete sample values used by the witnesses -/

/-- A block whose stored hash and predecessor are both the all-zero digest:
both decode, but the stored hash cannot match the recomputed digest. -/
def sample_mismatch_block : HashedBlock :=
  { signed_block :=
      { block := { previous := (HashDigest.from_u64 0).bytes
                   timestamp := 0
                   transactions := [] }
        signature := [] }
    hash := (HashDigest.from_u64 0).bytes }

/-- A fresh `HashedBlock` whose predecessor was set to `hash [1]` and whose
content hash has never been computed (the test scenario's starting state). -/
def sample_prev1_block : HashedBlock :=
  HashedBlock.new.set_previous_block (hash [1])

/-! ### The claims -/

/-- C1: `verify_hash()` succeeds if and only if the stored hash field
decodes as a well-formed fixed-length `Digest`, the predecessor field
decodes as a well-formed `Digest`, and the digest recomputed from the
current `SignedBlock` equals the stored hash; when the recomputed digest
differs from the stored one, the result is an error whose message names
both the stored and the recomputed digest. -/
theorem claim1_verify_hash_characterization (hb : HashedBlock) :
    (hb.verify_hash = .ok () ↔
      (∃ stored : HashDigest, HashDigest.from_bytes hb.hash = .ok stored ∧
        hash_message hb.signed_block = stored) ∧
      ∃ prev : HashDigest, HashDigest.from_bytes hb.get_block.previous = .ok prev) ∧
    (∀ stored prev : HashDigest,
      HashDigest.from_bytes hb.hash = .ok stored →
      HashDigest.from_bytes hb.get_block.previous = .ok prev →
      hash_message hb.signed_block ≠ stored →
      hb.verify_hash =
        .error ("Block has invalid hash: " ++ stored.display ++ " != "
          ++ (hash_message hb.signed_block).display ++ " (actual)")) := by
  constructor
  · rw [verify_hash_ok_iff]
    constructor
    · rintro ⟨h1, h2, h3⟩
      refine ⟨⟨hash_message hb.signed_block, ?_, rfl⟩, ⟨hb.get_block.previous, h2⟩, ?_⟩
      · rw [from_bytes_ok_iff]
        exact ⟨h1, h3⟩
      · rw [from_bytes_ok_iff]
        exact ⟨h2, rfl⟩
    · rintro ⟨⟨stored, hs, heq⟩, prev, hp⟩
      rw [from_bytes_ok_iff] at hs hp
      refine ⟨hs.1, hp.1, ?_⟩
      rw [heq]
      exact hs.2
  · intro stored prev hs hp hne
    exact verify_hash_mismatch hb stored prev hs hp hne

theorem claim1_witness :
    sample_mismatch_block.verify_hash =
      .error ("Block has invalid hash: " ++ (HashDigest.from_u64 0).display ++ " != "
        ++ (hash_message sample_mismatch_block.signed_block).display ++ " (actual)") :=
  (claim1_verify_hash_characterization sample_mismatch_block).2
    (HashDigest.from_u64 0) (HashDigest.from_u64 0)
    (from_bytes_wf (HashDigest.from_u64 0))
    (from_bytes_wf (HashDigest.from_u64 0))
    (hash_message_ne_from_u64_zero sample_mismatch_block.signed_block)

/-- C2: on a block whose stored predecessor field decodes as a well-formed
`Digest`, `compute_hash()` followed immediately by `verify_hash()`
succeeds, and the `Digest` returned by `compute_hash()` equals the value it
stores in the `hash` field. -/
theorem claim2_compute_hash_roundtrip (hb : HashedBlock) (d : HashDigest)
    (h : hb.decode_previous = .ok d) :
    (hb.compute_hash).1.verify_hash = .ok () ∧
    (hb.compute_hash).1.hash = ((hb.compute_hash).2).bytes := by
  unfold HashedBlock.decode_previous at h
  rw [from_bytes_ok_iff] at h
  exact ⟨verify_hash_of_computed hb h.1, rfl⟩

theorem claim2_witness :
    (sample_mismatch_block.compute_hash).1.verify_hash = .ok () ∧
    (sample_mismatch_block.compute_hash).1.hash
      = ((sample_mismatch_block.compute_hash).2).bytes :=
  claim2_compute_hash_roundtrip sample_mismatch_block (HashDigest.from_u64 0)
    (from_bytes_wf (HashDigest.from_u64 0))

/-- C3: after `compute_hash()`, any change of the underlying `SignedBlock`
without recomputation makes `verify_hash()` fail — in particular
re-pointing the predecessor via `set_previous_block` to a digest different
from the one that was hashed; calling `compute_hash()` again restores
success; and a `HashedBlock` on which `compute_hash()` has never been
called (its `hash` field still at the empty default) fails
`verify_hash()`. -/
theorem claim3_tamper_detection (hb : HashedBlock) :
    (∀ sb' : SignedBlock, sb' ≠ hb.signed_block →
      ({ (hb.compute_hash).1 with signed_block := sb' } : HashedBlock).verify_hash
        ≠ .ok ()) ∧
    (∀ d : HashDigest, d.bytes ≠ hb.signed_block.block.previous →
      ((hb.compute_hash).1.set_previous_block d).verify_hash ≠ .ok ()) ∧
    (∀ sb' : SignedBlock, sb'.block.previous.length = 32 →
      (({ (hb.compute_hash).1 with signed_block := sb' } : HashedBlock).compute_hash).1.verify_hash
        = .ok ()) ∧
    (∀ hb0 : HashedBlock, hb0.hash = [] → hb0.verify_hash ≠ .ok ()) := by
  refine ⟨?_, ?_, ?_, ?_⟩
  · intro sb' hne hok
    rw [verify_hash_ok_iff] at hok
    obtain ⟨-, -, h3⟩ := hok
    simp only [HashedBlock.compute_hash] at h3
    exact hne (hash_message_injective (HashDigest.eq_of_bytes h3))
  · intro d hne hok
    rw [verify_hash_ok_iff] at hok
    obtain ⟨-, -, h3⟩ := hok
    simp only [HashedBlock.set_previous_block, HashedBlock.mut_block, Block.set_previous,
      HashedBlock.compute_hash] at h3
    have heq := hash_message_injective (HashDigest.eq_of_bytes h3)
    apply hne
    have := congrArg (fun sb : SignedBlock => sb.block.previous) heq
    simpa using this
  · intro sb' hlen
    exact verify_hash_of_computed _ hlen
  · intro hb0 h0 hok
    rw [verify_hash_ok_iff] at hok
    rw [h0] at hok
    simp at hok

theorem claim3_witness :
    sample_prev1_block.verify_hash ≠ .ok () ∧
    ((sample_prev1_block.compute_hash).1.set_previous_block (hash [2])).verify_hash
      ≠ .ok () ∧
    (({ (sample_prev1_block.compute_hash).1 with
        signed_block := sample_prev1_block.signed_block } : HashedBlock).compute_hash).1.verify_hash
      = .ok () :=
  ⟨(claim3_tamper_detection sample_prev1_block).2.2.2 sample_prev1_block rfl,
   (claim3_tamper_detection sample_prev1_block).2.1 (hash [2]) (by decide),
   (claim3_tamper_detection sample_prev1_block).2.2.1 sample_prev1_block.signed_block
     (by decide)⟩

/-- C4: `verify()` succeeds exactly when `verify_hash()`, the block's
`verify_signature()` and every transaction's `verify_signatures()` succeed;
the hash check runs first and its failure is returned unchanged, and once
the hash and the (always-succeeding) signature check pass, the result is
that of checking the transactions in order. -/
theorem claim4_verify_components (hb : HashedBlock) :
    (hb.verify = .ok () ↔
      hb.verify_hash = .ok () ∧ hb.signed_block.verify_signature = .ok () ∧
        ∀ tx ∈ hb.get_block.transactions, tx.verify_signatures = .ok ()) ∧
    (∀ e : String, hb.verify_hash = .error e → hb.verify = .error e) ∧
    (hb.verify_hash = .ok () →
      hb.verify = verify_transactions hb.get_block.transactions) := by
  refine ⟨?_, verify_eq_error_of_hash hb, verify_of_hash_ok hb⟩
  constructor
  · intro hok
    cases hv : hb.verify_hash with
    | error e =>
      rw [verify_eq_error_of_hash hb e hv] at hok
      cases hok
    | ok u =>
      cases u
      have h2 := verify_of_hash_ok hb hv
      rw [h2] at hok
      exact ⟨rfl, rfl, (verify_transactions_ok_iff _).mp hok⟩
  · rintro ⟨h1, -, h3⟩
    rw [verify_of_hash_ok hb h1]
    exact (verify_transactions_ok_iff _).mpr h3

theorem claim4_witness :
    HashedBlock.new.verify = .error "Invalid hash digest: wrong number of bytes." :=
  (claim4_verify_components HashedBlock.new).2.1 _ rfl

/-- C5 (counterexample): a transaction with zero bounty and no
bounty-recipient key whose signature verification fails is rejected by
`create_genesis_block`, refuting "for every transaction with zero bounty
and no bounty-recipient key, create_genesis_block succeeds". -/
theorem claim5_counterexample :
    (Transaction.new.clear_signatures).commit.bounty = 0 ∧
    (Transaction.new.clear_signatures).commit.has_bounty_pk = false ∧
    create_genesis_block 0 (Transaction.new.clear_signatures) =
      .error "Invalid transaction signatures." :=
  ⟨rfl, rfl, rfl⟩

/-- C5 (amended): `create_genesis_block` fails with a descriptive error
whenever the transaction carries a nonzero bounty or declares a
bounty-recipient key, regardless of its other fields; for every transaction
with zero bounty, no bounty-recipient key, and passing signature
verification, it succeeds. -/
theorem claim5_genesis_policy (now : Int) (tx : Transaction) :
    (tx.commit.bounty ≠ 0 ∨ tx.commit.has_bounty_pk = true →
      create_genesis_block now tx =
        .error "Transactions must not have a bounty set in a genesis block.") ∧
    (tx.commit.bounty = 0 → tx.commit.has_bounty_pk = false →
      tx.verify_signatures = .ok () →
      ∃ hb : HashedBlock, create_genesis_block now tx = .ok hb) := by
  constructor
  · exact create_genesis_block_bounty_err now tx
  · intro h0 h1 h2
    exact ⟨_, create_genesis_block_ok now tx h0 h1 h2⟩

theorem claim5_witness :
    create_genesis_block 0 ⟨⟨7, none⟩, [], true⟩ =
      .error "Transactions must not have a bounty set in a genesis block." ∧
    ∃ hb : HashedBlock, create_genesis_block 0 Transaction.new = .ok hb :=
  ⟨(claim5_genesis_policy 0 ⟨⟨7, none⟩, [], true⟩).1 (Or.inl (by decide)),
   (claim5_genesis_policy 0 Transaction.new).2 rfl rfl rfl⟩

/-- C6: for every transaction with zero bounty, no bounty-recipient key and
passing signature verification, `create_genesis_block` returns a
`HashedBlock` whose block contains exactly that one transaction, whose
predecessor field is the reserved all-zero sentinel digest, whose timestamp
is the wall-clock time at construction (the explicit `now` argument), and
whose stored hash equals the content digest of the `SignedBlock`, so
`verify_hash` succeeds on the returned block. -/
theorem claim6_genesis_success (now : Int) (tx : Transaction)
    (h0 : tx.commit.bounty = 0) (h1 : tx.commit.has_bounty_pk = false)
    (h2 : tx.verify_signatures = .ok ()) :
    ∃ hb : HashedBlock, create_genesis_block now tx = .ok hb ∧
      hb.get_block.transactions = [tx] ∧
      hb.get_block.previous = List.replicate 32 0 ∧
      hb.get_block.timestamp = now ∧
      hb.hash = (hash_message hb.signed_block).bytes ∧
      hb.verify_hash = .ok () := by
  refine ⟨_, create_genesis_block_ok now tx h0 h1 h2, rfl, ?_, rfl, rfl, ?_⟩
  · show (HashDigest.from_u64 0).bytes = List.replicate 32 0
    decide
  · rw [verify_hash_ok_iff]
    exact ⟨(hash_message (genesis_payload now tx)).wf, (HashDigest.from_u64 0).wf, rfl⟩

theorem claim6_witness :
    ∃ hb : HashedBlock, create_genesis_block 5 Transaction.new = .ok hb ∧
      hb.get_block.transactions = [Transaction.new] ∧
      hb.get_block.previous = List.replicate 32 0 ∧
      hb.get_block.timestamp = 5 ∧
      hb.hash = (hash_message hb.signed_block).bytes ∧
      hb.verify_hash = .ok () :=
  claim6_genesis_success 5 Transaction.new rfl rfl rfl

/-- C7: a `GenesisBuilder` holding N transfers builds a genesis block whose
single transaction has exactly N transfer operations, in insertion order,
with operation indices 0 through N-1, all from (and signed by) the one
minting keypair `kp` generated for the build, and the resulting block's
predecessor pointer decodes to the all-zero sentinel digest. -/
theorem claim7_genesis_builder (gb : GenesisBuilder) (now : Int) (kp : Nat × Nat) :
    ∃ (hb : HashedBlock) (tx : Transaction),
      gb.build now kp = .ok hb ∧
      hb.get_block.transactions = [tx] ∧
      tx.transfers.length = gb.transfers.length ∧
      tx.transfers.map (fun o => (o.dst_pk, o.tokens)) = gb.transfers ∧
      tx.transfers.map (fun o => o.op_index) = List.range gb.transfers.length ∧
      tx.transfers.map (fun o => o.src_pk) = List.replicate gb.transfers.length kp.1 ∧
      tx.transfers.map (fun o => o.signer_sk) = List.replicate gb.transfers.length kp.2 ∧
      tx.signatures_valid = true ∧
      hb.decode_previous = .ok (HashDigest.from_u64 0) := by
  have hops : (add_transfer_loop kp.2 kp.1 gb.transfers TransactionBuilder.new 0).ops
      = expected_ops kp.2 kp.1 gb.transfers 0 := by
    rw [add_transfer_loop_ops]
    rfl
  have hbuild : gb.build now kp = create_genesis_block now
      ⟨⟨0, none⟩, (add_transfer_loop kp.2 kp.1 gb.transfers TransactionBuilder.new 0).ops,
        true⟩ := rfl
  rw [hops] at hbuild
  refine ⟨HashedBlock.mk
      (genesis_payload now ⟨⟨0, none⟩, expected_ops kp.2 kp.1 gb.transfers 0, true⟩)
      (hash_message (genesis_payload now
        ⟨⟨0, none⟩, expected_ops kp.2 kp.1 gb.transfers 0, true⟩)).bytes,
    ⟨⟨0, none⟩, expected_ops kp.2 kp.1 gb.transfers 0, true⟩,
    hbuild.trans (create_genesis_block_ok now
      ⟨⟨0, none⟩, expected_ops kp.2 kp.1 gb.transfers 0, true⟩ rfl rfl rfl),
    rfl, ?_, ?_, ?_, ?_, ?_, rfl, ?_⟩
  · exact expected_ops_length kp.2 kp.1 gb.transfers 0
  · exact expected_ops_dst_tokens kp.2 kp.1 gb.transfers 0
  · rw [List.range_eq_range']
    exact expected_ops_indices kp.2 kp.1 gb.transfers 0
  · exact expected_ops_src kp.2 kp.1 gb.transfers 0
  · exact expected_ops_signer kp.2 kp.1 gb.transfers 0
  · exact from_bytes_wf (HashDigest.from_u64 0)

/-- C8: `SignedBlock.verify_signature()` returns success for every
`SignedBlock`, regardless of the stored signature or block contents — the
verification is a stub that always succeeds. -/
theorem claim8_signature_stub (sb : SignedBlock) : sb.verify_signature = .ok () := rfl

/-- C9: for every digest `d` and every `BlockPatch` `p`,
`encode_previous d` followed by `decode_previous` succeeds and returns a
digest equal to `d`: the standalone predecessor-pointer codec pair is a
round-trip. -/
theorem claim9_patch_roundtrip (p : BlockPatch) (d : HashDigest) :
    (p.encode_previous d).decode_previous = .ok d :=
  from_bytes_wf d

/-- C10: because block-level signature verification unconditionally
succeeds, on a `HashedBlock` with an empty transaction list `verify()` is
exactly `verify_hash()` — it succeeds iff `verify_hash()` succeeds, and
nothing other than the hash check can reject such a block. -/
theorem claim10_verify_no_transactions (hb : HashedBlock)
    (h : hb.get_block.transactions = []) :
    hb.verify = hb.verify_hash ∧ (hb.verify = .ok () ↔ hb.verify_hash = .ok ()) := by
  have key : hb.verify = hb.verify_hash := by
    cases hv : hb.verify_hash with
    | error e =>
      rw [verify_eq_error_of_hash hb e hv]
    | ok u =>
      cases u
      rw [verify_of_hash_ok hb hv, h]
      rfl
  exact ⟨key, by rw [key]⟩

theorem claim10_witness :
    HashedBlock.new.verify = HashedBlock.new.verify_hash ∧
    (HashedBlock.new.verify = .ok () ↔ HashedBlock.new.verify_hash = .ok ()) :=
  claim10_verify_no_transactions HashedBlock.new rfl

end Simples
